import Mathlib

/-!
Verification development for the hypebot dispatch core (`hypebot/hypecore.py`):
the request-confirmation tracker (`RequestTracker`), the output path
(`Core.Reply`, `OutputUtil.LogAndOutput`) and the reload coordinator
(`Core.ReloadData`), shallowly embedded in Lean.

Python strings are modelled as `List Char` (`PyStr`); Python `str.split(sep)`
for a one-character separator is modelled by `pySplit`.  Side effects
(transport sends, log calls, action invocations, async scheduling) are
modelled as explicit event lists returned by each operation.
-/

namespace Hypecore

/-- A Python string, modelled as its list of characters. -/
abbrev PyStr := List Char

/-- Python `s.split(sep)` for a single-character separator `sep`:
always returns at least one (possibly empty) segment; every occurrence of
`sep` ends a segment.  In particular the split of the empty string is a
single empty segment. -/
def pySplit (sep : Char) : PyStr → List PyStr
  | [] => [[]]
  | c :: cs =>
    if c = sep then
      [] :: pySplit sep cs
    else
      match pySplit sep cs with
      | [] => [[c]]
      | l :: ls => (c :: l) :: ls

/-- A message as accepted by the reply path: a string, or an arbitrarily
nested list of strings (the `_MessageType` union together with what
`_AppendToMessage` actually supports). -/
inductive MsgTree where
  | str : PyStr → MsgTree
  | list : List MsgTree → MsgTree

mutual

/-- `_MakeMessage` / `_AppendToMessage`: flatten a message into its ordered
list of lines.  A string is split on embedded newlines; a list is flattened
element by element, in order. -/
def MsgTree.flatten : MsgTree → List PyStr
  | .str s => pySplit '\n' s
  | .list l => MsgTree.flattenList l

/-- Flatten each element of a list of messages, concatenating in order. -/
def MsgTree.flattenList : List MsgTree → List PyStr
  | [] => []
  | t :: ts => t.flatten ++ MsgTree.flattenList ts

end

/-- Python truthiness of a `MessageType` value: `None`, the empty string
and the empty list are falsy (the `if not msg` check in `Core.Reply`). -/
def MsgTree.isFalsy : Option MsgTree → Bool
  | none => true
  | some (.str s) => s.isEmpty
  | some (.list l) => l.isEmpty

/-- The `Channel.visibility` enum from `channel_pb2`. -/
inductive Visibility where
  | PUBLIC
  | PRIVATE
deriving DecidableEq

/-- The `Channel` proto: a destination descriptor. -/
structure Channel where
  id : PyStr
  visibility : Visibility
  name : PyStr
deriving DecidableEq

/-- `types.Target`: a destination, either a structured `Channel` or a
legacy bare string. -/
inductive Target where
  | chan : Channel → Target
  | str : PyStr → Target
deriving DecidableEq

/-- Python truthiness of an optional destination: `None` and the empty
string are falsy; a `Channel` proto object is always truthy. -/
def Target.isTruthy : Option Target → Bool
  | none => false
  | some (.chan _) => true
  | some (.str s) => !s.isEmpty

/-- The `channel = channel or default_channel` step of `Core.Reply`. -/
def resolveTarget (channel : Option Target) (default_channel : Option Channel) :
    Option Target :=
  if Target.isTruthy channel then channel else default_channel.map Target.chan

/-- Legacy-address normalization in `Core.Reply`: a bare-string destination
becomes a channel built as
`Channel(id=channel.split(sep)[0], visibility=Channel.PRIVATE, name=channel)`
where `sep` is the colon; a structured `Channel` passes through. -/
def normalizeTarget : Target → Channel
  | .chan c => c
  | .str s => ⟨(pySplit ':' s).headD [], .PRIVATE, s⟩

/-- `logging.INFO`. -/
def INFO : Nat := 20

/-- The overflow notice string of `Core.Reply`; its apostrophe is spelled
via its code point. -/
def privateNotice : PyStr :=
  "It".toList ++ [Char.ofNat 39] ++ "s long so I sent it privately.".toList

/-- Arguments of `Core.Reply`, with the default values of the source. -/
structure ReplyArgs where
  channel : Option Target
  msg : Option MsgTree
  default_channel : Option Channel := none
  limit_lines : Bool := false
  max_public_lines : Nat := 6
  user : Option PyStr := none
  log : Bool := false
  log_level : Nat := INFO

/-- Observable effects of one call on the reply path: the transport sends
(`interface.SendMessage`, with the message already flattened to lines by
`_MakeMessage`) and the log calls (recorded by level), each in call order. -/
structure ReplyResult where
  sends : List (Channel × List PyStr)
  logs : List Nat
deriving DecidableEq

/-- Python truthiness of the optional overflow `user` argument of
`Core.Reply`. -/
def userIsTruthy : Option PyStr → Bool
  | none => false
  | some u => !u.isEmpty

/-- `Core.Reply`. -/
def Reply (a : ReplyArgs) : ReplyResult :=
  if MsgTree.isFalsy a.msg then ⟨[], []⟩
  else
    let m := a.msg.getD (.str [])
    let logs := if a.log then [a.log_level] else []
    match resolveTarget a.channel a.default_channel with
    | none => ⟨[], logs ++ [INFO]⟩
    | some t =>
      let ch := normalizeTarget t
      let sends :=
        match m with
        | .list l =>
          if a.limit_lines = true ∧ ch.visibility = .PUBLIC ∧
              a.max_public_lines < l.length then
            if userIsTruthy a.user then
              let u := a.user.getD []
              [(ch, MsgTree.flatten (.str privateNotice)),
               (⟨u, .PRIVATE, u⟩, MsgTree.flatten (.list l))]
            else
              [(ch, MsgTree.flattenList (l.take a.max_public_lines ++ [.str "...".toList]))]
          else [(ch, MsgTree.flatten m)]
        | .str _ => [(ch, MsgTree.flatten m)]
      ⟨sends, logs⟩

/-- `OutputUtil.Output`: forwards to `Core.Reply` with only a channel and a
message (all other `Reply` arguments at their defaults). -/
def Output (channel : Channel) (msg : Option MsgTree) : ReplyResult :=
  Reply { channel := some (.chan channel), msg := msg }

/-- `OutputUtil.LogAndOutput`: `logging.log(log_level, message)`
unconditionally, then `Output(channel, message)`. -/
def LogAndOutput (log_level : Nat) (channel : Channel) (msg : Option MsgTree) :
    ReplyResult :=
  let r := Output channel msg
  ⟨r.sends, log_level :: r.logs⟩

/-! ## RequestTracker -/

/-- `RequestTracker._REQUEST_TIMEOUT_SEC`. -/
def REQUEST_TIMEOUT_SEC : Nat := 60

/-- A stored pending request: the caller-supplied `request_details` dict
(an opaque `payload` plus the optional `action_text` entry that
`ResolveRequest` reads) together with the bookkeeping fields the tracker
injects: `timestamp`, `action` (modelled by an opaque identifier) and
`parse`. -/
structure PendingRequest (α : Type) where
  payload : α
  action_text : Option PyStr
  timestamp : Nat
  actionId : Nat
  parse : PyStr → Bool

/-- Observable effects of a tracker operation: replies sent through the
`reply` capability, and invocations of a stored action (which the source
calls as `action(user, request_details)`). -/
inductive TrackerEvent (α : Type) where
  | reply (user : PyStr) (text : PyStr)
  | invoke (user : PyStr) (actionId : Nat) (details : PendingRequest α)

/-- The `RequestTracker` state: the `_pending_requests` map, keyed by
user. -/
structure TrackerState (α : Type) where
  pending : PyStr → Option (PendingRequest α)

/-- The default `parse_fn` of `RequestConfirmation`: lowercase the reply
and test whether it starts with the letter y. -/
def defaultParse (x : PyStr) : Bool :=
  ['y'].isPrefixOf (x.map Char.toLower)

/-- `RequestTracker.HasPendingRequest`. -/
def HasPendingRequest {α : Type} (st : TrackerState α) (user : PyStr) : Bool :=
  (st.pending user).isSome

/-- Arguments of one `RequestConfirmation` call: the user, `summary`, the
caller-supplied `request_details` contents, `action_fn` (as an opaque
identifier) and the optional `parse_fn`. -/
structure ConfArgs (α : Type) where
  user : PyStr
  summary : PyStr
  payload : α
  action_text : Option PyStr
  actionId : Nat
  parse_fn : Option (PyStr → Bool) := none

/-- The store path of `RequestConfirmation`: inject `timestamp`, `action`
and `parse` into `request_details`, store it for the user, and send the
confirmation prompt. -/
def storeRequest {α : Type} (st : TrackerState α) (now : Nat) (c : ConfArgs α) :
    TrackerState α × List (TrackerEvent α) :=
  let req : PendingRequest α :=
    { payload := c.payload, action_text := c.action_text, timestamp := now,
      actionId := c.actionId, parse := c.parse_fn.getD defaultParse }
  (⟨Function.update st.pending c.user (some req)⟩,
   [.reply c.user ("Confirm ".toList ++ c.summary ++ "?".toList)])

/-- `RequestTracker.RequestConfirmation` at time `now`. -/
def RequestConfirmation {α : Type} (st : TrackerState α) (now : Nat)
    (c : ConfArgs α) : TrackerState α × List (TrackerEvent α) :=
  match st.pending c.user with
  | some previous_request =>
    if now - previous_request.timestamp < REQUEST_TIMEOUT_SEC then
      (st, [.reply c.user "Confirm prior request before submitting another.".toList])
    else
      storeRequest st now c
  | none => storeRequest st now c

/-- `RequestTracker.ResolveRequest` at time `now`. -/
def ResolveRequest {α : Type} (st : TrackerState α) (now : Nat) (user : PyStr)
    (user_msg : PyStr) : TrackerState α × List (TrackerEvent α) :=
  match st.pending user with
  | none => (st, [])
  | some request_details =>
    let st' : TrackerState α := ⟨Function.update st.pending user none⟩
    if request_details.parse user_msg = false then
      (st', [.reply user "Cancelling request.".toList])
    else if REQUEST_TIMEOUT_SEC ≤ now - request_details.timestamp then
      (st', [.reply user "You took too long to confirm, try again.".toList])
    else
      (st', [.reply user (request_details.action_text.getD "Confirmation accepted.".toList),
             .invoke user request_details.actionId request_details])

/-- Run a sequence of timestamped `RequestConfirmation` calls in order,
collecting the events of each call separately. -/
def runConfirmations {α : Type} (st : TrackerState α) :
    List (Nat × ConfArgs α) → TrackerState α × List (List (TrackerEvent α))
  | [] => (st, [])
  | (now, c) :: rest =>
    let r := RequestConfirmation st now c
    let rr := runConfirmations r.1 rest
    (rr.1, r.2 :: rr.2)

/-! ## ReloadData -/

/-- One attribute value of the `Core` object (an element of
`self.__dict__.values()`), abstracted to whether it exposes a reload
capability (the `hasattr(obj, ...)` test). -/
structure Collaborator where
  hasReloadData : Bool
deriving DecidableEq

/-- The state `Core.ReloadData` consults: the idleness of the task runner
and the registered attribute objects, in dictionary order. -/
structure CoreState where
  runnerIdle : Bool
  attributes : List Collaborator
deriving DecidableEq

/-- Observable effects of `Core.ReloadData`: the not-idle log line, the
synchronous `proxy.FlushCache()`, and the per-collaborator trigger log and
`runner.RunAsync` scheduling (collaborators identified by position). -/
inductive ReloadEvent where
  | logNotIdle
  | flushCache
  | logTrigger (i : Nat)
  | runAsync (i : Nat)
deriving DecidableEq

/-- `Core.ReloadData`. -/
def ReloadData (s : CoreState) : Bool × List ReloadEvent :=
  if s.runnerIdle = false then (false, [.logNotIdle])
  else
    (true, .flushCache ::
      (s.attributes.enum.map (fun p =>
        if p.2.hasReloadData then [ReloadEvent.logTrigger p.1, .runAsync p.1]
        else [])).flatten)

/-! ## Sample inputs used by the witness theorems -/

/-- A sample user. -/
def userW : PyStr := "alice".toList

/-- A sample stored pending request (timestamp 5, action 7, default
predicate). -/
def reqW : PendingRequest Nat := ⟨0, none, 5, 7, defaultParse⟩

/-- A tracker state in which every user has `reqW` pending. -/
def stW : TrackerState Nat := ⟨fun _ => some reqW⟩

/-- The empty tracker state. -/
def stEmptyW : TrackerState Nat := ⟨fun _ => none⟩

/-- A sample `RequestConfirmation` call for `userW`. -/
def confW : ConfArgs Nat :=
  { user := userW, summary := "deploy".toList, payload := 3,
    action_text := none, actionId := 9 }

/-- A sample public channel. -/
def pubChanW : Channel := ⟨"#hype".toList, .PUBLIC, "#hype".toList⟩

/-- The four-line sample message list of the truncation scenario. -/
def listW4 : List MsgTree :=
  [.str "1".toList, .str "2".toList, .str "3".toList, .str "4".toList]

/-- The four-line sample message of the truncation scenario. -/
def msgW4 : MsgTree := .list listW4

/-- Sample `Reply` arguments with an empty-list message and logging
requested. -/
def argsEmptyW : ReplyArgs :=
  { channel := some (.chan pubChanW), msg := some (.list []), log := true }

/-- Sample `Reply` arguments with a legacy bare-string destination. -/
def argsLegacyW : ReplyArgs :=
  { channel := some (.str "alice:sub".toList), msg := some (.str "hi".toList) }

/-! ## Helper lemmas -/

/-- `pySplit` never returns the empty list of segments. -/
theorem pySplit_ne_nil (sep : Char) (s : PyStr) : pySplit sep s ≠ [] := by
  induction s with
  | nil => simp [pySplit]
  | cons c cs ih =>
    simp only [pySplit]
    split
    · simp
    · cases h : pySplit sep cs with
      | nil => simp
      | cons l ls => simp

/-- Splitting a string that does not contain the separator yields the
string itself as the single segment. -/
theorem pySplit_of_not_mem (sep : Char) (s : PyStr) (h : sep ∉ s) :
    pySplit sep s = [s] := by
  induction s with
  | nil => rfl
  | cons c cs ih =>
    simp only [List.mem_cons, not_or] at h
    simp only [pySplit]
    rw [if_neg (fun hc => h.1 hc.symm), ih h.2]

/-- The first segment of a Python `split` is the longest prefix of the
string free of the separator. -/
theorem pySplit_head (sep : Char) (s : PyStr) :
    (pySplit sep s).headD [] = s.takeWhile (fun c => c ≠ sep) := by
  induction s with
  | nil => rfl
  | cons c cs ih =>
    simp only [pySplit, List.takeWhile]
    by_cases hc : c = sep
    · subst hc
      simp
    · rw [if_neg hc]
      cases h : pySplit sep cs with
      | nil => exact absurd h (pySplit_ne_nil sep cs)
      | cons l ls =>
        simp only [List.headD_cons]
        have := ih
        rw [h] at this
        simp only [List.headD_cons] at this
        simp [hc, this]

/-- Flattening a flat list of newline-free strings returns the same
strings. -/
theorem flattenList_map_str (l : List PyStr) (h : ∀ s ∈ l, '\n' ∉ s) :
    MsgTree.flattenList (l.map .str) = l := by
  induction l with
  | nil => rfl
  | cons s ss ih =>
    simp only [List.map_cons, MsgTree.flattenList, MsgTree.flatten]
    rw [pySplit_of_not_mem _ _ (h s (by simp)), ih (fun t ht => h t (by simp [ht]))]
    rfl

/-- `flattenList` distributes over list concatenation. -/
theorem flattenList_append (xs ys : List MsgTree) :
    MsgTree.flattenList (xs ++ ys)
      = MsgTree.flattenList xs ++ MsgTree.flattenList ys := by
  induction xs with
  | nil => rfl
  | cons t ts ih =>
    simp only [List.cons_append, MsgTree.flattenList, List.append_eq]
    rw [ih, List.append_assoc]

/-- `Char.toNat` inverts `Char.ofNat` on valid code points. -/
theorem toNat_ofNat_valid {n : Nat} (h : n.isValidChar) : (Char.ofNat n).toNat = n := by
  rw [Char.ofNat, dif_pos h]
  rfl

/-- The only characters whose ASCII lowercase form is the letter y are y
itself and its uppercase form. -/
theorem toLower_eq_y (c : Char) : Char.toLower c = 'y' ↔ (c = 'y' ∨ c = 'Y') := by
  constructor
  · intro h
    rw [Char.toLower] at h
    split at h
    · rename_i hn
      right
      have hv : (Char.toNat c + 32).isValidChar := Or.inl (by omega)
      have h121 : Char.toNat c + 32 = 121 := by
        have h2 := congrArg Char.toNat h
        rwa [toNat_ofNat_valid hv] at h2
      have hc : c = Char.ofNat (Char.toNat c) := (Char.ofNat_toNat c).symm
      rw [show Char.toNat c = 89 by omega] at hc
      exact hc.trans (by decide)
    · exact Or.inl h
  · rintro (rfl | rfl) <;> decide

/-- A sequence of `RequestConfirmation` calls for a user who already has a
pending request younger than the timeout leaves the state untouched and
answers every call with the duplicate-rejection reply. -/
theorem runConfirmations_rejected {α : Type} (user : PyStr) (r0 : PendingRequest α)
    (calls : List (Nat × ConfArgs α)) (st : TrackerState α)
    (hst : st.pending user = some r0)
    (hc : ∀ p ∈ calls, p.2.user = user ∧ p.1 - r0.timestamp < REQUEST_TIMEOUT_SEC) :
    runConfirmations st calls
      = (st, calls.map (fun _ =>
          [TrackerEvent.reply user "Confirm prior request before submitting another.".toList])) := by
  induction calls generalizing st with
  | nil => rfl
  | cons p rest ih =>
    obtain ⟨hu, ht⟩ := hc p (by simp)
    have hstep : RequestConfirmation st p.1 p.2
        = (st, [TrackerEvent.reply user "Confirm prior request before submitting another.".toList]) := by
      rw [RequestConfirmation, hu, hst]
      simp [ht]
    obtain ⟨n, c⟩ := p
    simp only [runConfirmations, hstep, List.map_cons]
    rw [ih st hst (fun q hq => hc q (by simp [hq]))]

/-! ## Claims -/

/-- C1: At most one pending request per user.  Starting from a state with
no pending request for the user of `c0`, the first `RequestConfirmation`
call stores a `PendingRequest` carrying the supplied details (timestamped
with the call time, with the supplied action and predicate) and sends the
confirmation prompt; every subsequent call for the same user made without
an intervening `ResolveRequest` and before 60 seconds have elapsed since
the first call replies with the duplicate-rejection message, stores
nothing, and leaves the state exactly as after the first call — in
particular it never overwrites the stored action. -/
theorem at_most_one_pending_per_user {α : Type} (st : TrackerState α) (now0 : Nat)
    (c0 : ConfArgs α) (rest : List (Nat × ConfArgs α))
    (hnone : st.pending c0.user = none)
    (hrest : ∀ p ∈ rest, p.2.user = c0.user ∧ p.1 - now0 < REQUEST_TIMEOUT_SEC) :
    (RequestConfirmation st now0 c0).1.pending c0.user
      = some ⟨c0.payload, c0.action_text, now0, c0.actionId, c0.parse_fn.getD defaultParse⟩
    ∧ (RequestConfirmation st now0 c0).2
      = [.reply c0.user ("Confirm ".toList ++ c0.summary ++ "?".toList)]
    ∧ (runConfirmations (RequestConfirmation st now0 c0).1 rest).1
      = (RequestConfirmation st now0 c0).1
    ∧ (runConfirmations (RequestConfirmation st now0 c0).1 rest).2
      = rest.map (fun _ =>
          [.reply c0.user "Confirm prior request before submitting another.".toList]) := by
  have hfirst : RequestConfirmation st now0 c0 = storeRequest st now0 c0 := by
    rw [RequestConfirmation, hnone]
  have hp : (RequestConfirmation st now0 c0).1.pending c0.user
      = some ⟨c0.payload, c0.action_text, now0, c0.actionId, c0.parse_fn.getD defaultParse⟩ := by
    rw [hfirst, storeRequest]
    simp [Function.update]
  have hrun := runConfirmations_rejected c0.user _ rest _ hp
    (fun p hp' => ⟨(hrest p hp').1, (hrest p hp').2⟩)
  refine ⟨hp, ?_, ?_, ?_⟩
  · rw [hfirst, storeRequest]
  · rw [hrun]
  · rw [hrun]

/-- Witness for C1: a concrete first call at time 10 followed by a
duplicate call at time 30. -/
theorem at_most_one_pending_per_user_witness :
    (stEmptyW.pending confW.user = none)
    ∧ (∀ p ∈ [((30 : Nat), confW)], p.2.user = confW.user ∧ p.1 - 10 < REQUEST_TIMEOUT_SEC)
    ∧ ((RequestConfirmation stEmptyW 10 confW).1.pending confW.user
        = some ⟨confW.payload, confW.action_text, 10, confW.actionId, confW.parse_fn.getD defaultParse⟩
      ∧ (RequestConfirmation stEmptyW 10 confW).2
        = [.reply confW.user ("Confirm ".toList ++ confW.summary ++ "?".toList)]
      ∧ (runConfirmations (RequestConfirmation stEmptyW 10 confW).1 [(30, confW)]).1
        = (RequestConfirmation stEmptyW 10 confW).1
      ∧ (runConfirmations (RequestConfirmation stEmptyW 10 confW).1 [(30, confW)]).2
        = [(30, confW)].map (fun _ =>
            [.reply confW.user "Confirm prior request before submitting another.".toList])) :=
  ⟨rfl, by decide,
   at_most_one_pending_per_user stEmptyW 10 confW [(30, confW)] rfl (by decide)⟩

/-- C2: Resolution always clears state.  If a user has a pending request,
then after any `ResolveRequest` call for that user — whatever the message
and elapsed time, hence whatever the outcome (confirmed, denied or
expired) — `HasPendingRequest` is false, and a fresh `RequestConfirmation`
issued immediately afterwards stores its new request. -/
theorem resolve_request_clears_state {α : Type} (st : TrackerState α) (now now2 : Nat)
    (user user_msg : PyStr) (r0 : PendingRequest α) (c : ConfArgs α)
    (h : st.pending user = some r0) (hc : c.user = user) :
    HasPendingRequest (ResolveRequest st now user user_msg).1 user = false
    ∧ (RequestConfirmation (ResolveRequest st now user user_msg).1 now2 c).1.pending user
      = some ⟨c.payload, c.action_text, now2, c.actionId, c.parse_fn.getD defaultParse⟩ := by
  have hstate : (ResolveRequest st now user user_msg).1
      = ⟨Function.update st.pending user none⟩ := by
    rw [ResolveRequest, h]
    simp only
    split
    · rfl
    · split <;> rfl
  have hnone : (ResolveRequest st now user user_msg).1.pending user = none := by
    rw [hstate]
    simp [Function.update]
  refine ⟨by rw [HasPendingRequest, hnone]; rfl, ?_⟩
  rw [RequestConfirmation, hc, hnone, storeRequest]
  simp [Function.update, hc]

/-- Witness for C2: resolving the sample pending request at time 70 (an
expired confirmation) clears the entry, and a fresh request at time 100 is
stored. -/
theorem resolve_request_clears_state_witness :
    (stW.pending userW = some reqW)
    ∧ (confW.user = userW)
    ∧ (HasPendingRequest (ResolveRequest stW 70 userW "yes".toList).1 userW = false
      ∧ (RequestConfirmation (ResolveRequest stW 70 userW "yes".toList).1 100 confW).1.pending userW
        = some ⟨confW.payload, confW.action_text, 100, confW.actionId, confW.parse_fn.getD defaultParse⟩) :=
  ⟨rfl, rfl,
   resolve_request_clears_state stW 70 100 userW "yes".toList reqW confW rfl rfl⟩

/-- C3: Timeout boundary of `ResolveRequest`.  For a user with a pending
request and a reply on which the stored predicate is true: if the elapsed
time since the request timestamp is below 60 seconds, the events are
exactly an acknowledgement (the `action_text` entry if present, otherwise
the generic acceptance message) followed by a single invocation of the
stored action with the user and the request details; if the elapsed time
is 60 seconds or more, the only event is the too-long reply and the action
is not invoked. -/
theorem resolve_request_timeout_boundary {α : Type} (st : TrackerState α) (now : Nat)
    (user user_msg : PyStr) (r0 : PendingRequest α)
    (h : st.pending user = some r0) (hp : r0.parse user_msg = true) :
    (now - r0.timestamp < REQUEST_TIMEOUT_SEC →
      (ResolveRequest st now user user_msg).2
        = [.reply user (r0.action_text.getD "Confirmation accepted.".toList),
           .invoke user r0.actionId r0])
    ∧ (REQUEST_TIMEOUT_SEC ≤ now - r0.timestamp →
      (ResolveRequest st now user user_msg).2
        = [.reply user "You took too long to confirm, try again.".toList]) := by
  constructor
  · intro hlt
    rw [ResolveRequest, h]
    simp [hp, Nat.not_le.mpr hlt]
  · intro hge
    rw [ResolveRequest, h]
    simp [hp, hge]

/-- Witness for C3: a truthy confirmation of the sample request at time 30
(25 seconds after its creation). -/
theorem resolve_request_timeout_boundary_witness :
    (stW.pending userW = some reqW)
    ∧ (reqW.parse "yes".toList = true)
    ∧ ((30 - reqW.timestamp < REQUEST_TIMEOUT_SEC →
        (ResolveRequest stW 30 userW "yes".toList).2
          = [.reply userW (reqW.action_text.getD "Confirmation accepted.".toList),
             .invoke userW reqW.actionId reqW])
      ∧ (REQUEST_TIMEOUT_SEC ≤ 30 - reqW.timestamp →
        (ResolveRequest stW 30 userW "yes".toList).2
          = [.reply userW "You took too long to confirm, try again.".toList])) :=
  ⟨rfl, by decide,
   resolve_request_timeout_boundary stW 30 userW "yes".toList reqW rfl (by decide)⟩

/-- Counterexample to C4 as stated: with `limit_lines` true, a PUBLIC
destination and a single-string message whose flattened line count (3)
exceeds `max_public_lines` (2), the claim demands a truncated send, but
the code sends the full flattened message, because its guard tests
`isinstance(msg, list) and len(msg)` on the raw message, not the flattened
line count. -/
theorem reply_truncation_flattened_count_cex :
    2 < (MsgTree.flatten (.str "1\n2\n3".toList)).length
    ∧ (Reply { channel := some (.chan pubChanW),
               msg := some (.str "1\n2\n3".toList),
               limit_lines := true, max_public_lines := 2 }).sends
        = [(pubChanW, ["1".toList, "2".toList, "3".toList])]
    ∧ (Reply { channel := some (.chan pubChanW),
               msg := some (.str "1\n2\n3".toList),
               limit_lines := true, max_public_lines := 2 }).sends
        ≠ [(pubChanW, ["1".toList, "2".toList, "...".toList])] := by
  refine ⟨by decide, rfl, by decide⟩

/-- C4 (amended): a message is truncated only when `limit_lines` is true
AND the resolved destination visibility is PUBLIC AND the message is
supplied as a raw list with more than `max_public_lines` elements (the
guard tests the unflattened list length, not the flattened line count);
in that case, with no overflow user given, the destination is sent the
flattening of the first `max_public_lines` list elements followed by a
literal three-dot marker line; in every other case the full flattened
message is sent unmodified. -/
theorem reply_truncation_raw_list_rule (ch : Channel) (m : MsgTree) (ll : Bool) (mx : Nat)
    (hm : MsgTree.isFalsy (some m) = false) :
    (∀ l, m = .list l → ll = true → ch.visibility = .PUBLIC → mx < l.length →
      (Reply { channel := some (.chan ch), msg := some m, limit_lines := ll,
               max_public_lines := mx }).sends
        = [(ch, MsgTree.flattenList (l.take mx) ++ ["...".toList])])
    ∧ ((∀ l, m = .list l → ¬(ll = true ∧ ch.visibility = .PUBLIC ∧ mx < l.length)) →
      (Reply { channel := some (.chan ch), msg := some m, limit_lines := ll,
               max_public_lines := mx }).sends = [(ch, m.flatten)]) := by
  have hres : resolveTarget (some (.chan ch)) none = some (.chan ch) := rfl
  constructor
  · rintro l rfl hll hvis hlen
    rw [Reply]
    simp only [hm, Bool.false_eq_true, if_false, Option.getD_some, hres]
    rw [normalizeTarget]
    have hcond : ll = true ∧ ch.visibility = Visibility.PUBLIC ∧ mx < l.length :=
      ⟨hll, hvis, hlen⟩
    simp only [if_pos hcond, userIsTruthy, Bool.false_eq_true, if_false]
    rw [flattenList_append]
    rfl
  · intro hno
    rw [Reply]
    simp only [hm, Bool.false_eq_true, if_false, Option.getD_some, hres]
    rw [normalizeTarget]
    cases m with
    | str t => rfl
    | list l =>
      simp only [if_neg (hno l rfl)]

/-- Witness for C4 (amended): the scenario of the spec — a PUBLIC
destination, `limit_lines` true, `max_public_lines` 2 and the raw list of
the four single-line strings 1, 2, 3, 4 — is sent exactly the lines 1, 2
and the three-dot marker. -/
theorem reply_truncation_raw_list_rule_witness :
    MsgTree.isFalsy (some msgW4) = false
    ∧ (Reply { channel := some (.chan pubChanW), msg := some msgW4,
               limit_lines := true, max_public_lines := 2 }).sends
        = [(pubChanW, ["1".toList, "2".toList, "...".toList])] :=
  ⟨rfl,
   ((reply_truncation_raw_list_rule pubChanW msgW4 true 2 rfl).1
      listW4 rfl rfl rfl (by decide)).trans (by decide)⟩

/-- C5: Message flattening.  Flattening the nested sample message (a
two-line string next to a nested list holding a one-line string and a
two-line string) yields exactly the five lines a, b, c, d, e; and
flattening an already-flat list of single-line (newline-free) strings
returns it unchanged. -/
theorem message_flattening_spec (l : List PyStr) (h : ∀ s ∈ l, '\n' ∉ s) :
    MsgTree.flatten (.list [.str "a\nb".toList,
        .list [.str "c".toList, .str "d\ne".toList]])
      = ["a".toList, "b".toList, "c".toList, "d".toList, "e".toList]
    ∧ MsgTree.flatten (.list (l.map .str)) = l := by
  refine ⟨by decide, ?_⟩
  rw [MsgTree.flatten]
  exact flattenList_map_str l h

/-- Witness for C5: a concrete flat list of two newline-free lines. -/
theorem message_flattening_spec_witness :
    (∀ s ∈ ["ab".toList, "cd".toList], '\n' ∉ s)
    ∧ (MsgTree.flatten (.list [.str "a\nb".toList,
          .list [.str "c".toList, .str "d\ne".toList]])
        = ["a".toList, "b".toList, "c".toList, "d".toList, "e".toList]
      ∧ MsgTree.flatten (.list (["ab".toList, "cd".toList].map .str))
        = ["ab".toList, "cd".toList]) :=
  ⟨by decide, message_flattening_spec ["ab".toList, "cd".toList] (by decide)⟩

/-- Counterexample to C6 as stated: passing an empty-string message to
`LogAndOutput` sends nothing, but does log — the log-event list is the
single unconditional `logging.log` call, not empty — so the empty message
is not a complete no-op across the output interface. -/
theorem log_and_output_empty_message_cex :
    (LogAndOutput INFO pubChanW (some (.str []))).sends = []
    ∧ (LogAndOutput INFO pubChanW (some (.str []))).logs = [INFO]
    ∧ ([INFO] : List Nat) ≠ [] := by decide

/-- C6 (amended): an empty or absent message makes `Reply` a complete
no-op — nothing is sent and nothing is logged, regardless of the log flag
and of the destination.  `LogAndOutput` with an empty message likewise
sends nothing, but it logs once unconditionally at the given level before
delegating. -/
theorem empty_message_reply_noop (a : ReplyArgs) (lvl : Nat) (ch : Channel)
    (m : Option MsgTree) (h : MsgTree.isFalsy a.msg = true)
    (hm : MsgTree.isFalsy m = true) :
    Reply a = ⟨[], []⟩
    ∧ (LogAndOutput lvl ch m).sends = []
    ∧ (LogAndOutput lvl ch m).logs = [lvl] := by
  have hr : ∀ b : ReplyArgs, MsgTree.isFalsy b.msg = true → Reply b = ⟨[], []⟩ := by
    intro b hb
    rw [Reply, hb]
    rfl
  have ho : Reply { channel := some (.chan ch), msg := m } = ⟨[], []⟩ :=
    hr _ hm
  refine ⟨hr a h, ?_, ?_⟩ <;>
    simp [LogAndOutput, Output, ho]

/-- Witness for C6 (amended): an empty-list message with logging requested
to a public channel, and an empty-string message through `LogAndOutput` at
level 40. -/
theorem empty_message_reply_noop_witness :
    MsgTree.isFalsy argsEmptyW.msg = true
    ∧ MsgTree.isFalsy (some (.str [])) = true
    ∧ (Reply argsEmptyW = ⟨[], []⟩
      ∧ (LogAndOutput 40 pubChanW (some (.str []))).sends = []
      ∧ (LogAndOutput 40 pubChanW (some (.str []))).logs = [40]) :=
  ⟨rfl, rfl, empty_message_reply_noop argsEmptyW 40 pubChanW (some (.str [])) rfl rfl⟩

/-- C7: Legacy destination normalization.  For a non-empty bare-string
destination and a non-empty message, `Reply` sends the flattened message
to a channel whose id is the segment of the string before the first colon,
whose visibility is PRIVATE and whose name is the original full string. -/
theorem legacy_string_destination_normalization (a : ReplyArgs) (s : PyStr) (m : MsgTree)
    (hch : a.channel = some (.str s)) (hs : s ≠ [])
    (hm : a.msg = some m) (hmt : MsgTree.isFalsy (some m) = false) :
    (Reply a).sends
      = [(⟨s.takeWhile (fun c => c ≠ ':'), .PRIVATE, s⟩, m.flatten)] := by
  have htruthy : Target.isTruthy a.channel = true := by
    rw [hch]
    simp [Target.isTruthy, hs]
  have hres : resolveTarget a.channel a.default_channel = some (.str s) := by
    rw [resolveTarget, htruthy]
    simpa using hch
  have hnorm : normalizeTarget (.str s)
      = ⟨s.takeWhile (fun c => c ≠ ':'), .PRIVATE, s⟩ := by
    rw [normalizeTarget, pySplit_head]
  rw [Reply, hm, hmt]
  simp only [hm, Option.getD_some, hres, hnorm]
  cases m with
  | str t => rfl
  | list l =>
    have hcond : ¬(a.limit_lines = true ∧ Visibility.PRIVATE = Visibility.PUBLIC ∧
        a.max_public_lines < l.length) := by
      rintro ⟨-, hvis, -⟩
      exact absurd hvis (by simp)
    simp only [if_neg hcond]
    rfl

/-- Witness for C7: the sub-account string destination alice:sub receives
the message on a private channel whose id is alice and whose name is the
full string. -/
theorem legacy_string_destination_normalization_witness :
    argsLegacyW.channel = some (.str "alice:sub".toList)
    ∧ ("alice:sub".toList ≠ ([] : PyStr))
    ∧ argsLegacyW.msg = some (.str "hi".toList)
    ∧ MsgTree.isFalsy (some (.str "hi".toList)) = false
    ∧ (Reply argsLegacyW).sends
        = [(⟨("alice:sub".toList).takeWhile (fun c => c ≠ ':'), .PRIVATE,
             "alice:sub".toList⟩, (MsgTree.str "hi".toList).flatten)] :=
  ⟨rfl, by decide, rfl, rfl,
   legacy_string_destination_normalization argsLegacyW "alice:sub".toList
     (.str "hi".toList) rfl (by decide) rfl rfl⟩

/-- C8: Reload gating.  When the task runner is not idle, `ReloadData`
returns false, does not flush the proxy cache and schedules no reload.
When the runner is idle, it returns true, flushes the proxy cache first,
and schedules an asynchronous reload exactly for the registered attribute
objects that expose a reload capability. -/
theorem reload_data_gating (s : CoreState) :
    (s.runnerIdle = false →
      ReloadData s = (false, [.logNotIdle])
      ∧ ReloadEvent.flushCache ∉ (ReloadData s).2
      ∧ ∀ i, ReloadEvent.runAsync i ∉ (ReloadData s).2)
    ∧ (s.runnerIdle = true →
      (ReloadData s).1 = true
      ∧ (ReloadData s).2.head? = some .flushCache
      ∧ ∀ i, (ReloadEvent.runAsync i ∈ (ReloadData s).2 ↔
          ∃ c, s.attributes[i]? = some c ∧ c.hasReloadData = true)) := by
  constructor
  · intro hb
    have hd : ReloadData s = (false, [.logNotIdle]) := by
      rw [ReloadData, if_pos hb]
    refine ⟨hd, ?_, ?_⟩
    · rw [hd]
      simp
    · intro i
      rw [hd]
      simp
  · intro hi
    have hd : ReloadData s = (true, .flushCache ::
        (s.attributes.enum.map (fun p =>
          if p.2.hasReloadData then [ReloadEvent.logTrigger p.1, .runAsync p.1]
          else [])).flatten) := by
      rw [ReloadData, if_neg (by rw [hi]; simp)]
    refine ⟨by rw [hd], by rw [hd]; rfl, ?_⟩
    intro i
    rw [hd]
    simp only [List.mem_cons, reduceCtorEq, false_or, List.mem_flatten,
      List.mem_map]
    constructor
    · rintro ⟨evs, ⟨⟨j, c⟩, hmem, hevs⟩, hin⟩
      by_cases hcr : c.hasReloadData = true
      · rw [if_pos hcr] at hevs
        subst hevs
        simp only [List.mem_cons, List.mem_singleton, reduceCtorEq, false_or,
          ReloadEvent.runAsync.injEq, List.not_mem_nil, or_false] at hin
        subst hin
        exact ⟨c, List.mk_mem_enum_iff_getElem?.mp hmem, hcr⟩
      · rw [if_neg hcr] at hevs
        subst hevs
        exact absurd hin (List.not_mem_nil _)
    · rintro ⟨c, hget, hcr⟩
      refine ⟨[ReloadEvent.logTrigger i, .runAsync i], ⟨⟨i, c⟩, ?_, ?_⟩, ?_⟩
      · exact List.mk_mem_enum_iff_getElem?.mpr hget
      · rw [if_pos hcr]
      · simp

/-- Witness for C8: a busy runner with one reloadable attribute, and an
idle runner with one reloadable and one non-reloadable attribute. -/
theorem reload_data_gating_witness :
    (ReloadData ⟨false, [⟨true⟩]⟩ = (false, [.logNotIdle]))
    ∧ (ReloadData ⟨true, [⟨true⟩, ⟨false⟩]⟩).1 = true
    ∧ (ReloadEvent.runAsync 0 ∈ (ReloadData ⟨true, [⟨true⟩, ⟨false⟩]⟩).2 ↔
        ∃ c, (⟨true, [⟨true⟩, ⟨false⟩]⟩ : CoreState).attributes[0]? = some c
          ∧ c.hasReloadData = true) :=
  ⟨((reload_data_gating ⟨false, [⟨true⟩]⟩).1 rfl).1,
   ((reload_data_gating ⟨true, [⟨true⟩, ⟨false⟩]⟩).2 rfl).1,
   ((reload_data_gating ⟨true, [⟨true⟩, ⟨false⟩]⟩).2 rfl).2.2 0⟩

/-- C9: Default parse predicate.  The default predicate is true exactly on
strings whose first character is the letter y in either case, and in
particular accepts Yes, y and YEAH and rejects no and the empty string. -/
theorem default_parse_predicate_spec (x : PyStr) :
    (defaultParse x = true ↔ ∃ c cs, x = c :: cs ∧ (c = 'y' ∨ c = 'Y'))
    ∧ defaultParse "Yes".toList = true
    ∧ defaultParse "y".toList = true
    ∧ defaultParse "YEAH".toList = true
    ∧ defaultParse "no".toList = false
    ∧ defaultParse "".toList = false := by
  refine ⟨?_, by decide, by decide, by decide, by decide, by decide⟩
  cases x with
  | nil => simp [defaultParse, List.isPrefixOf]
  | cons c cs =>
    simp only [defaultParse, List.map_cons, List.isPrefixOf, Bool.and_true,
      beq_iff_eq]
    constructor
    · intro h
      exact ⟨c, cs, rfl, (toLower_eq_y c).mp h.symm⟩
    · rintro ⟨c', cs', heq, hy⟩
      injection heq with h1 h2
      subst h1
      exact ((toLower_eq_y c).mpr hy).symm

/-- C10: A rejected duplicate `RequestConfirmation` call — one made while
the stored request of that user is younger than 60 seconds — returns the
state completely unchanged (same stored request, hence same timestamp,
action and predicate, so the expiry window is never extended) and only
replies with the duplicate-rejection message. -/
theorem rejected_duplicate_preserves_request {α : Type} (st : TrackerState α) (now : Nat)
    (c : ConfArgs α) (r0 : PendingRequest α)
    (h : st.pending c.user = some r0)
    (hlt : now - r0.timestamp < REQUEST_TIMEOUT_SEC) :
    (RequestConfirmation st now c).1 = st
    ∧ (RequestConfirmation st now c).1.pending c.user = some r0
    ∧ (RequestConfirmation st now c).2
      = [.reply c.user "Confirm prior request before submitting another.".toList] := by
  have hstep : RequestConfirmation st now c
      = (st, [.reply c.user "Confirm prior request before submitting another.".toList]) := by
    rw [RequestConfirmation, h]
    simp [hlt]
  rw [hstep]
  exact ⟨rfl, h, rfl⟩

/-- Witness for C10: a duplicate call at time 30 against the sample
request created at time 5. -/
theorem rejected_duplicate_preserves_request_witness :
    (stW.pending confW.user = some reqW)
    ∧ (30 - reqW.timestamp < REQUEST_TIMEOUT_SEC)
    ∧ ((RequestConfirmation stW 30 confW).1 = stW
      ∧ (RequestConfirmation stW 30 confW).1.pending confW.user = some reqW
      ∧ (RequestConfirmation stW 30 confW).2
        = [.reply confW.user "Confirm prior request before submitting another.".toList]) :=
  ⟨rfl, by decide,
   rejected_duplicate_preserves_request stW 30 confW reqW rfl (by decide)⟩

end Hypecore
